import Mathlib

/-!
# Directus3D `PhysicsWorld`: a shallow embedding

Source: `src/Directus3D/Physics/PhysicsWorld.cpp`.

* C++ `float` is kept abstract: the operations `Step` uses are the fields of the class
  `FloatOps`, so that facts which do not depend on rounding hold for every float semantics.
  The instance on `Binary32` is IEEE 754 single precision on the fields of the bit pattern:
  every operation is rounded to nearest, ties to even, with subnormals, infinities and NaN.
* Every externally visible action (a call into the Bullet backend, a signal, a call on the debug
  drawer, a `delete`) is an `Event`; each member function returns the list of events it performs,
  in program order, together with the new component state. `ResetSteps` records with every event
  of `Reset` the world as it is when the event has been performed.
* A pointer member is an `Option`: `none` is `nullptr`.
-/

namespace Directus

/-! ## Floats -/

/-- The `float` operations that occur in `PhysicsWorld.cpp`. `lit q` is the literal written `q`
(`60.0f`, `-9.81f`, `1.0f`, and the `int` constant `1` converted to `float`); `toInt` is the
implicit `float`-to-`int` conversion of `int maxSubSteps = timeStep * m_internalFPS + 1;`. -/
class FloatOps (F : Type) where
  lit : ℚ → F
  mul : F → F → F
  add : F → F → F
  div : F → F → F
  toInt : F → Int

/-- C++ conversion of a real value to `int`: the fractional part is discarded
(truncation toward zero). -/
def truncate (q : ℚ) : Int :=
  if 0 ≤ q then ⌊q⌋ else ⌈q⌉

/-- An IEEE 754 binary32 value (C++ `float`), by the fields of its bit pattern: sign bit, biased
exponent (8 bits) and fraction (23 bits). Exponent 255 is an infinity (fraction 0) or a NaN;
exponent 0 is a zero or a subnormal. -/
structure Binary32 where
  sign : Bool
  exponent : Nat
  fraction : Nat
deriving DecidableEq, Repr

namespace Binary32

/-- The value with the 32-bit pattern `b`. -/
def ofBits (b : Nat) : Binary32 :=
  { sign := decide (b / 2 ^ 31 % 2 = 1), exponent := b / 2 ^ 23 % 256, fraction := b % 2 ^ 23 }

/-- The 32-bit pattern of a value. -/
def toBits (x : Binary32) : Nat :=
  (if x.sign then 2 ^ 31 else 0) + x.exponent * 2 ^ 23 + x.fraction

/-- Whether the value is a NaN. -/
def isNaN (x : Binary32) : Bool := decide (255 ≤ x.exponent) && decide (x.fraction ≠ 0)

/-- Whether the value is an infinity. -/
def isInfinite (x : Binary32) : Bool := decide (255 ≤ x.exponent) && decide (x.fraction = 0)

/-- Whether the value is a zero. -/
def isZero (x : Binary32) : Bool := decide (x.exponent = 0) && decide (x.fraction = 0)

/-- The integer significand of a finite value: the fraction, with the hidden bit for a normal
number. -/
def significand (x : Binary32) : Nat :=
  if x.exponent = 0 then x.fraction else 2 ^ 23 + x.fraction

/-- The power of two that scales the significand: a finite `x` has magnitude
`significand x * 2 ^ scale x`. -/
def scale (x : Binary32) : Int :=
  ((if x.exponent = 0 then 1 else x.exponent : Nat) : Int) - 150

/-- The real number a finite value stands for. -/
def toRat (x : Binary32) : ℚ :=
  (if x.sign then -1 else 1) * (x.significand : ℚ) * 2 ^ x.scale

/-- The quiet NaN. -/
def nan : Binary32 := { sign := false, exponent := 255, fraction := 2 ^ 22 }

/-- The infinity of the given sign. -/
def infinity (sign : Bool) : Binary32 := { sign := sign, exponent := 255, fraction := 0 }

/-- The zero of the given sign. -/
def zero (sign : Bool) : Binary32 := { sign := sign, exponent := 0, fraction := 0 }

/-- The number of binary digits of `n`; `fuel` bounds the recursion and `fuel = n` is enough. -/
def bitLength : Nat → Nat → Nat
  | 0, _ => 0
  | fuel + 1, n => if n = 0 then 0 else bitLength fuel (n / 2) + 1

/-- The integer `l` with `2 ^ l ≤ num / den < 2 ^ (l + 1)`, for positive `num` and `den`. -/
def floorLog2 (num den : Nat) : Int :=
  let d : Int := (bitLength num num : Int) - (bitLength den den : Int)
  if den * 2 ^ d.toNat ≤ num * 2 ^ (-d).toNat then d else d - 1

/-- The binary32 value nearest to `num / den` with the given sign, ties to the even significand:
the rounding every arithmetic operation ends with. The quotient is cut at the position of the last
significand bit (24 bits below the leading one, or bit `-149` in the subnormal range), rounded
there, and overflows to an infinity. -/
def roundNearestEven (sign : Bool) (num den : Nat) : Binary32 :=
  if num = 0 then zero sign
  else
    let l := floorLog2 num den
    let q : Int := (if l < -126 then -126 else l) - 23
    let n := num * 2 ^ (-q).toNat
    let d := den * 2 ^ q.toNat
    let m := n / d
    let r := n % d
    let m := if d < 2 * r ∨ (2 * r = d ∧ m % 2 = 1) then m + 1 else m
    let q := if m = 2 ^ 24 then q + 1 else q
    let m := if m = 2 ^ 24 then 2 ^ 23 else m
    if m < 2 ^ 23 then { sign := sign, exponent := 0, fraction := m }
    else if 255 ≤ q + 150 then infinity sign
    else { sign := sign, exponent := (q + 150).toNat, fraction := m - 2 ^ 23 }

/-- The `float` product `x * y`. -/
def mul (x y : Binary32) : Binary32 :=
  let s := xor x.sign y.sign
  if x.isNaN || y.isNaN then nan
  else if x.isInfinite then (if y.isZero then nan else infinity s)
  else if y.isInfinite then (if x.isZero then nan else infinity s)
  else
    let e := x.scale + y.scale
    roundNearestEven s (x.significand * y.significand * 2 ^ e.toNat) (2 ^ (-e).toNat)

/-- The `float` sum `x + y`. -/
def add (x y : Binary32) : Binary32 :=
  if x.isNaN || y.isNaN then nan
  else if x.isInfinite then (if y.isInfinite && (x.sign != y.sign) then nan else x)
  else if y.isInfinite then y
  else
    let e := if x.scale ≤ y.scale then x.scale else y.scale
    let a : Int :=
      (if x.sign then -1 else 1) * ((x.significand * 2 ^ (x.scale - e).toNat : Nat) : Int)
    let b : Int :=
      (if y.sign then -1 else 1) * ((y.significand * 2 ^ (y.scale - e).toNat : Nat) : Int)
    let sum := a + b
    if sum = 0 then zero (x.sign && y.sign)
    else roundNearestEven (decide (sum < 0)) (sum.natAbs * 2 ^ e.toNat) (2 ^ (-e).toNat)

/-- The `float` quotient `x / y`. -/
def div (x y : Binary32) : Binary32 :=
  let s := xor x.sign y.sign
  if x.isNaN || y.isNaN then nan
  else if x.isInfinite then (if y.isInfinite then nan else infinity s)
  else if y.isInfinite then zero s
  else if y.isZero then (if x.isZero then nan else infinity s)
  else
    let e := x.scale - y.scale
    roundNearestEven s (x.significand * 2 ^ e.toNat) (y.significand * 2 ^ (-e).toNat)

/-- The `float` a decimal literal (or a converted `int` constant) denotes. -/
def lit (q : ℚ) : Binary32 :=
  roundNearestEven (decide (q < 0)) q.num.natAbs q.den

/-- The least value of the 32-bit `int`. -/
def INT_MIN : Int := -2 ^ 31

/-- The conversion of a `float` to the 32-bit `int`: the fractional part is discarded. A NaN, an
infinity or a value outside the range of `int` is undefined behaviour in C++; the model returns
what the x86 conversion instruction returns then, `INT_MIN`. -/
def toInt (x : Binary32) : Int :=
  if 255 ≤ x.exponent then INT_MIN
  else
    let magnitude : Nat := x.significand * 2 ^ x.scale.toNat / 2 ^ (-x.scale).toNat
    let v : Int := if x.sign then -(magnitude : Int) else (magnitude : Int)
    if -2 ^ 31 ≤ v ∧ v < 2 ^ 31 then v else INT_MIN

end Binary32

/-- C++ `float` as IEEE 754 binary32, each operation rounded on its own (no excess precision, no
fused multiply-add). -/
instance binary32Float : FloatOps Binary32 where
  lit := Binary32.lit
  mul := Binary32.mul
  add := Binary32.add
  div := Binary32.div
  toInt := Binary32.toInt

/-- Modelled from the spec: the 3D vector `Directus::Math::Vector3` (its header is not part of
the sources), three `float` components. -/
structure Vector3 (F : Type) where
  x : F
  y : F
  z : F
deriving DecidableEq, Repr

/-! ## The Bullet backend, as far as `PhysicsWorld.cpp` uses it -/

/-- Bullet `btDbvtBroadphase`: an opaque backend object. -/
structure btDbvtBroadphase where
deriving DecidableEq, Repr

/-- Bullet `btDefaultCollisionConfiguration`: an opaque backend object. -/
structure btDefaultCollisionConfiguration where
deriving DecidableEq, Repr

/-- Bullet `btCollisionDispatcher`: an opaque backend object. -/
structure btCollisionDispatcher where
deriving DecidableEq, Repr

/-- Bullet `btSequentialImpulseConstraintSolver`: an opaque backend object. -/
structure btSequentialImpulseConstraintSolver where
deriving DecidableEq, Repr

/-- Bullet `btIDebugDraw::DebugDrawModes`, as far as the source mentions them. -/
inductive DebugDrawModes where
  | DBG_NoDebug
  | DBG_MAX_DEBUG_DRAW_MODE
deriving DecidableEq, Repr

/-- Modelled from the spec: the debug-draw sink `PhysicsDebugDraw` (`PhysicsDebugDraw.h` is not
part of the sources), an implementation of `btIDebugDraw`; its debug mode is the only state that
`PhysicsWorld.cpp` writes, and `ClearLines()` is an `Event`. -/
structure PhysicsDebugDraw where
  m_debugMode : DebugDrawModes
deriving DecidableEq, Repr

/-- A `btTypedConstraint*`: the address of a constraint. -/
abbrev btTypedConstraint := Nat

/-- A `btCollisionObject*`: the address of the object together with what `Reset` reads through
it: whether `btRigidBody::upcast` succeeds, and the `getMotionState()` pointer of the body. -/
structure btCollisionObject where
  addr : Nat
  isRigidBody : Bool
  motionState : Option Nat
deriving DecidableEq, Repr

/-- Bullet `btRigidBody::upcast(obj)`: the object itself when it is a rigid body, else `nullptr`. -/
def btRigidBody.upcast (obj : btCollisionObject) : Option btCollisionObject :=
  if obj.isRigidBody then some obj else none

/-- Bullet `btAlignedObjectArray<T>::remove(key)`, the removal behind `removeConstraint` and
`removeCollisionObject`: linear search for the first element equal to `key`; when found it is
swapped with the last element and the array is popped. -/
def btAlignedObjectArray.remove {α : Type} [DecidableEq α] (xs : List α) (key : α) : List α :=
  let findIndex := xs.indexOf key
  match xs.getLast? with
  | none => xs
  | some last => if findIndex < xs.length then (xs.set findIndex last).dropLast else xs

/-- Bullet `btDiscreteDynamicsWorld`: gravity, the two settings `Initialize` writes, the attached
debug drawer, and the registries of constraints and collision objects (arrays of pointers). -/
structure btDiscreteDynamicsWorld (F : Type) where
  m_gravity : Vector3 F
  m_useContinuous : Bool
  m_splitImpulse : Bool
  m_debugDrawer : Option PhysicsDebugDraw
  m_constraints : List btTypedConstraint
  m_collisionObjects : List btCollisionObject
deriving DecidableEq, Repr

namespace btDiscreteDynamicsWorld

variable {F : Type}

/-- Bullet `getNumConstraints()`. -/
def getNumConstraints (w : btDiscreteDynamicsWorld F) : Nat := w.m_constraints.length

/-- Bullet `getConstraint(i)`; `none` is an access outside the array. -/
def getConstraint (w : btDiscreteDynamicsWorld F) (i : Nat) : Option btTypedConstraint :=
  w.m_constraints[i]?

/-- Bullet `removeConstraint(c)`. -/
def removeConstraint (w : btDiscreteDynamicsWorld F) (c : btTypedConstraint) :
    btDiscreteDynamicsWorld F :=
  { w with m_constraints := btAlignedObjectArray.remove w.m_constraints c }

/-- Bullet `getNumCollisionObjects()`. -/
def getNumCollisionObjects (w : btDiscreteDynamicsWorld F) : Nat := w.m_collisionObjects.length

/-- Bullet `getCollisionObjectArray()[i]`; `none` is an access outside the array. -/
def getCollisionObject (w : btDiscreteDynamicsWorld F) (i : Nat) : Option btCollisionObject :=
  w.m_collisionObjects[i]?

/-- Bullet `removeCollisionObject(obj)`. -/
def removeCollisionObject (w : btDiscreteDynamicsWorld F) (obj : btCollisionObject) :
    btDiscreteDynamicsWorld F :=
  { w with m_collisionObjects := btAlignedObjectArray.remove w.m_collisionObjects obj }

end btDiscreteDynamicsWorld

/-! ## Collaborators outside `PhysicsWorld.cpp` -/

/-- Modelled from the spec: the result of `GET_ENGINE_MODE` (`Core/Settings.h` is not part of the
sources). The run-state query reports either the stopped/editing state `Editor_Stop` or an
actively running state; `other` stands for any further enumerator. -/
inductive EngineMode where
  | Editor_Play
  | Editor_Stop
  | other (tag : Nat)
deriving DecidableEq, Repr

/-- Modelled from the spec: the signals of `Signals/Signaling.h` (not part of the sources);
`PhysicsWorld.cpp` emits only `SIGNAL_PHYSICS_STEPPED`. -/
inductive Signal where
  | SIGNAL_PHYSICS_STEPPED
  | other (tag : Nat)
deriving DecidableEq, Repr

/-- The six sub-resources a `PhysicsWorld` owns. -/
inductive Resource where
  | broadphase
  | collisionConfiguration
  | dispatcher
  | constraintSolver
  | world
  | debugDraw
deriving DecidableEq, Repr

/-- The externally visible actions of `PhysicsWorld.cpp`. -/
inductive Event (F : Type) where
  /-- The `new` expression that creates the sub-resource. -/
  | construct (r : Resource)
  /-- The `delete` of the sub-resource, through `SafeDelete`. -/
  | delete (r : Resource)
  /-- The shared-ownership release of the sub-resource, through `SafeRelease`. -/
  | release (r : Resource)
  /-- The call `m_world->stepSimulation(timeStep, maxSubSteps, fixedTimeStep)`. -/
  | stepSimulation (timeStep : F) (maxSubSteps : Int) (fixedTimeStep : F)
  /-- The emission `EMIT_SIGNAL(signal)`. -/
  | emitSignal (signal : Signal)
  /-- The call `m_debugDraw->ClearLines()`. -/
  | clearLines
  /-- The call `m_world->debugDrawWorld()`. -/
  | debugDrawWorld
  /-- The call `m_world->removeConstraint(c)`. -/
  | removeConstraint (c : btTypedConstraint)
  /-- The statement `delete constraint`. -/
  | deleteConstraint (c : btTypedConstraint)
  /-- The statement `delete body->getMotionState()`. -/
  | deleteMotionState (m : Nat)
  /-- The call `m_world->removeCollisionObject(obj)`. -/
  | removeCollisionObject (obj : btCollisionObject)
  /-- The statement `delete obj`. -/
  | deleteCollisionObject (obj : btCollisionObject)
deriving DecidableEq, Repr

/-! ## `PhysicsWorld` -/

/-- The data members of `PhysicsWorld`. -/
structure PhysicsWorld (F : Type) where
  m_internalFPS : F
  m_maxSubSteps : Int
  m_gravity : Vector3 F
  m_broadphase : Option btDbvtBroadphase
  m_dispatcher : Option btCollisionDispatcher
  m_constraintSolver : Option btSequentialImpulseConstraintSolver
  m_collisionConfiguration : Option btDefaultCollisionConfiguration
  m_world : Option (btDiscreteDynamicsWorld F)
  m_debugDraw : Option PhysicsDebugDraw
deriving DecidableEq, Repr

/-- What a call of `Step` does: the events performed, in order, and the component state on
return. `state = none` means that the call dereferenced a null `m_debugDraw` (undefined behaviour);
`trace` then holds the events up to that point. -/
structure StepOutcome (F : Type) where
  trace : List (Event F)
  state : Option (PhysicsWorld F)
deriving DecidableEq, Repr

namespace PhysicsWorld

variable {F : Type} [FloatOps F]

open FloatOps

/-- The constructor `PhysicsWorld::PhysicsWorld()` (lines 39 to 51). -/
def ctor : PhysicsWorld F :=
  { m_internalFPS := lit 60
    m_maxSubSteps := 0
    m_gravity := ⟨lit 0, lit (-981 / 100), lit 0⟩
    m_broadphase := none
    m_dispatcher := none
    m_constraintSolver := none
    m_collisionConfiguration := none
    m_world := none
    m_debugDraw := none }

/-- Modelled from the spec: `SafeDelete(p)` of `Core/Globals.h` (not part of the sources); a
release is a no-op when the pointer is absent, else the object is deleted. -/
def SafeDelete {α : Type} (p : Option α) (r : Resource) : List (Event F) :=
  match p with
  | none => []
  | some _ => [Event.delete r]

/-- Modelled from the spec: `SafeRelease(p)` of `Core/Globals.h` (not part of the sources); a
no-op when the pointer is absent, else the shared-ownership release of the object. -/
def SafeRelease {α : Type} (p : Option α) (r : Resource) : List (Event F) :=
  match p with
  | none => []
  | some _ => [Event.release r]

/-- The destructor `PhysicsWorld::~PhysicsWorld()` (lines 53 to 61): the releases it performs, in
program order. -/
def dtor (pw : PhysicsWorld F) : List (Event F) :=
  SafeDelete pw.m_world Resource.world
    ++ SafeDelete pw.m_constraintSolver Resource.constraintSolver
    ++ SafeDelete pw.m_broadphase Resource.broadphase
    ++ SafeDelete pw.m_dispatcher Resource.dispatcher
    ++ SafeDelete pw.m_collisionConfiguration Resource.collisionConfiguration
    ++ SafeRelease pw.m_debugDraw Resource.debugDraw

/-- The member `PhysicsWorld::Initialize()` (lines 63 to 80); `ToBtVector3` copies the three
components of the gravity vector. -/
def Initialize (pw : PhysicsWorld F) : PhysicsWorld F × List (Event F) :=
  let m_debugDraw : PhysicsDebugDraw := { m_debugMode := DebugDrawModes.DBG_MAX_DEBUG_DRAW_MODE }
  let m_world : btDiscreteDynamicsWorld F :=
    { m_gravity := pw.m_gravity
      m_useContinuous := true
      m_splitImpulse := false
      m_debugDrawer := some m_debugDraw
      m_constraints := []
      m_collisionObjects := [] }
  ({ pw with
      m_broadphase := some {}
      m_collisionConfiguration := some {}
      m_dispatcher := some {}
      m_constraintSolver := some {}
      m_world := some m_world
      m_debugDraw := some m_debugDraw },
   [Event.construct Resource.broadphase,
    Event.construct Resource.collisionConfiguration,
    Event.construct Resource.dispatcher,
    Event.construct Resource.constraintSolver,
    Event.construct Resource.world,
    Event.construct Resource.debugDraw])

/-- The arguments `(maxSubSteps, internalTimeStep)` that `Step` computes for `stepSimulation`
(lines 89 to 97). -/
def stepArguments (pw : PhysicsWorld F) (timeStep : F) : Int × F :=
  let internalTimeStep := div (lit 1) pw.m_internalFPS
  let maxSubSteps := toInt (add (mul timeStep pw.m_internalFPS) (lit 1))
  if pw.m_maxSubSteps < 0 then
    (1, timeStep)
  else if pw.m_maxSubSteps > 0 then
    (min maxSubSteps pw.m_maxSubSteps, internalTimeStep)
  else
    (maxSubSteps, internalTimeStep)

/-- The member `PhysicsWorld::Step(timeStep)` (lines 82 to 109); `engineMode` is what
`GET_ENGINE_MODE` returns during the call. -/
def Step (pw : PhysicsWorld F) (timeStep : F) (engineMode : EngineMode) : StepOutcome F :=
  match pw.m_world with
  | none => { trace := [], state := some pw }
  | some _ =>
    let args := stepArguments pw timeStep
    let stepped : List (Event F) :=
      [Event.stepSimulation timeStep args.1 args.2, Event.emitSignal Signal.SIGNAL_PHYSICS_STEPPED]
    if engineMode = EngineMode.Editor_Stop then
      match pw.m_debugDraw with
      | none => { trace := stepped, state := none }
      | some _ => { trace := stepped ++ [Event.clearLines, Event.debugDrawWorld], state := some pw }
    else
      { trace := stepped, state := some pw }

/-- The first loop of `Reset` (lines 117 to 122), entered with loop index `i = n - 1`. Each step
is recorded with the world as it is when the step has been performed. -/
def resetConstraints : Nat → btDiscreteDynamicsWorld F →
    Option (btDiscreteDynamicsWorld F × List (Event F × btDiscreteDynamicsWorld F))
  | 0, w => some (w, [])
  | i + 1, w =>
    match w.getConstraint i with
    | none => none
    | some constraint =>
      let removed := w.removeConstraint constraint
      match resetConstraints i removed with
      | none => none
      | some (w', rest) =>
        some (w', (Event.removeConstraint constraint, removed)
          :: (Event.deleteConstraint constraint, removed) :: rest)

/-- One pass through the body of the second loop of `Reset` (lines 127 to 134) on the world `w`:
the world after the pass, and the steps of the pass. -/
def resetCollisionObject (w : btDiscreteDynamicsWorld F) (obj : btCollisionObject) :
    btDiscreteDynamicsWorld F × List (Event F × btDiscreteDynamicsWorld F) :=
  let motion : List (Event F × btDiscreteDynamicsWorld F) :=
    match btRigidBody.upcast obj with
    | none => []
    | some body =>
      match body.motionState with
      | none => []
      | some m => [(Event.deleteMotionState m, w)]
  let removed := w.removeCollisionObject obj
  (removed, motion
    ++ [(Event.removeCollisionObject obj, removed), (Event.deleteCollisionObject obj, removed)])

/-- The second loop of `Reset` (lines 125 to 135), entered with loop index `i = n - 1`. -/
def resetCollisionObjects : Nat → btDiscreteDynamicsWorld F →
    Option (btDiscreteDynamicsWorld F × List (Event F × btDiscreteDynamicsWorld F))
  | 0, w => some (w, [])
  | i + 1, w =>
    match w.getCollisionObject i with
    | none => none
    | some obj =>
      match resetCollisionObjects i (resetCollisionObject w obj).1 with
      | none => none
      | some (w', rest) => some (w', (resetCollisionObject w obj).2 ++ rest)

/-- The member `PhysicsWorld::Reset()` (lines 111 to 136) with its intermediate states: the
component state on return, and every event together with the world as it is when the event has been
performed. `none` is an access outside one of the registries. -/
def ResetSteps (pw : PhysicsWorld F) :
    Option (PhysicsWorld F × List (Event F × btDiscreteDynamicsWorld F)) :=
  match pw.m_world with
  | none => some (pw, [])
  | some w =>
    match resetConstraints w.getNumConstraints w with
    | none => none
    | some (w1, t1) =>
      match resetCollisionObjects w1.getNumCollisionObjects w1 with
      | none => none
      | some (w2, t2) => some ({ pw with m_world := some w2 }, t1 ++ t2)

/-- The member `PhysicsWorld::Reset()` (lines 111 to 136): the component state on return and the
events performed, in order. -/
def Reset (pw : PhysicsWorld F) : Option (PhysicsWorld F × List (Event F)) :=
  match ResetSteps pw with
  | none => none
  | some (pw', steps) => some (pw', steps.map Prod.fst)

/-- The accessor `PhysicsWorld::GetWorld()`. -/
def GetWorld (pw : PhysicsWorld F) : Option (btDiscreteDynamicsWorld F) := pw.m_world

/-- The accessor `PhysicsWorld::GetPhysicsDebugDraw()`. -/
def GetPhysicsDebugDraw (pw : PhysicsWorld F) : Option PhysicsDebugDraw := pw.m_debugDraw

end PhysicsWorld

/-! ## Observations on traces -/

section Observations

variable {F : Type}

/-- The `stepSimulation` calls of a trace, as `(timeStep, maxSubSteps, fixedTimeStep)`. -/
def backendCalls : List (Event F) → List (F × Int × F)
  | [] => []
  | Event.stepSimulation timeStep maxSubSteps fixedTimeStep :: rest =>
    (timeStep, maxSubSteps, fixedTimeStep) :: backendCalls rest
  | _ :: rest => backendCalls rest

/-- The sub-resources a trace releases (by `delete` or by `Release()`), in order. -/
def releasedResources : List (Event F) → List Resource
  | [] => []
  | Event.delete r :: rest => r :: releasedResources rest
  | Event.release r :: rest => r :: releasedResources rest
  | _ :: rest => releasedResources rest

/-- The sub-resources a trace constructs, in order. -/
def constructedResources : List (Event F) → List Resource
  | [] => []
  | Event.construct r :: rest => r :: constructedResources rest
  | _ :: rest => constructedResources rest

/-- Whether a step destroys a constraint or a collision object that the world of that step still
holds in its registry. -/
def destroysRegistered : Event F × btDiscreteDynamicsWorld F → Bool
  | (Event.deleteConstraint c, w) => decide (c ∈ w.m_constraints)
  | (Event.deleteCollisionObject obj, w) =>
    decide (obj.addr ∈ w.m_collisionObjects.map btCollisionObject.addr)
  | _ => false

/-- The teardown of the constraint registry `cs` from the highest index down to 0: each
constraint is unregistered, then destroyed. -/
def constraintTeardown (cs : List btTypedConstraint) : List (Event F) :=
  cs.reverse.flatMap fun c => [Event.removeConstraint c, Event.deleteConstraint c]

/-- The teardown of one collision object: the motion state of a rigid body that owns one is
destroyed, then the object is unregistered, then destroyed. -/
def collisionObjectEvents (obj : btCollisionObject) : List (Event F) :=
  (if obj.isRigidBody then (obj.motionState.map Event.deleteMotionState).toList else [])
    ++ [Event.removeCollisionObject obj, Event.deleteCollisionObject obj]

/-- The teardown of the collision-object registry `os` from the highest index down to 0. -/
def collisionObjectTeardown (os : List btCollisionObject) : List (Event F) :=
  os.reverse.flatMap collisionObjectEvents

end Observations

/-! ## Concrete worlds -/

/-- The world that `Initialize` makes of a freshly constructed `PhysicsWorld` (so with
`m_internalFPS = 60.0f`), with `m_maxSubSteps` set to the given cap. -/
def sampleWorld (maxSubSteps : Int) : PhysicsWorld Binary32 :=
  { (PhysicsWorld.Initialize (PhysicsWorld.ctor : PhysicsWorld Binary32)).1 with
    m_maxSubSteps := maxSubSteps }

/-- A registry with two constraints and three collision objects: a rigid body with a motion
state, a collision object that is no rigid body, and a rigid body without motion state. -/
def sampleRegistry : btDiscreteDynamicsWorld Binary32 :=
  { m_gravity := (PhysicsWorld.ctor : PhysicsWorld Binary32).m_gravity
    m_useContinuous := true
    m_splitImpulse := false
    m_debugDrawer := some { m_debugMode := DebugDrawModes.DBG_MAX_DEBUG_DRAW_MODE }
    m_constraints := [7, 8]
    m_collisionObjects := [⟨1, true, some 5⟩, ⟨2, false, none⟩, ⟨3, true, none⟩] }

/-- An initialized world whose registries are those of `sampleRegistry`. -/
def populatedWorld : PhysicsWorld Binary32 :=
  { sampleWorld 0 with m_world := some sampleRegistry }

/-- The member functions a caller can invoke on a live `PhysicsWorld`, and the registrations that
collaborators perform through `GetWorld()`. -/
inductive Reachable {F : Type} [FloatOps F] : PhysicsWorld F → Prop where
  | ctor : Reachable PhysicsWorld.ctor
  | Initialize (pw : PhysicsWorld F) : Reachable pw → Reachable pw.Initialize.1
  | Step (pw pw' : PhysicsWorld F) (timeStep : F) (engineMode : EngineMode) :
      Reachable pw → (pw.Step timeStep engineMode).state = some pw' → Reachable pw'
  | Reset (pw pw' : PhysicsWorld F) (trace : List (Event F)) :
      Reachable pw → pw.Reset = some (pw', trace) → Reachable pw'
  | register (pw : PhysicsWorld F) (w : btDiscreteDynamicsWorld F)
      (cs : List btTypedConstraint) (os : List btCollisionObject) :
      Reachable pw → pw.m_world = some w →
      Reachable { pw with m_world := some { w with m_constraints := cs, m_collisionObjects := os } }

/-! ## Stepping -/

section Stepping

variable {F : Type} [FloatOps F]

open PhysicsWorld FloatOps

theorem Step_trace_of_world (pw : PhysicsWorld F) (timeStep : F) (engineMode : EngineMode)
    (h : pw.m_world.isSome) :
    backendCalls (pw.Step timeStep engineMode).trace
      = [(timeStep, (pw.stepArguments timeStep).1, (pw.stepArguments timeStep).2)] := by
  unfold PhysicsWorld.Step
  cases hw : pw.m_world with
  | none => simp [hw] at h
  | some w =>
    cases hd : pw.m_debugDraw <;> by_cases hm : engineMode = EngineMode.Editor_Stop <;>
      simp [hm, backendCalls]

/-- C1. On an initialized world with `m_maxSubSteps > 0`, for every `timeStep` and every float
semantics, `Step` calls `stepSimulation` exactly once, and the substep count it passes is at most
`m_maxSubSteps`. -/
theorem C1_substeps_le_maxSubSteps (pw : PhysicsWorld F) (timeStep : F)
    (engineMode : EngineMode) (hinit : pw.m_world.isSome) (hmax : 0 < pw.m_maxSubSteps) :
    ∃ n fixedTimeStep,
      backendCalls (pw.Step timeStep engineMode).trace = [(timeStep, n, fixedTimeStep)]
        ∧ n ≤ pw.m_maxSubSteps := by
  refine ⟨_, _, Step_trace_of_world pw timeStep engineMode hinit, ?_⟩
  have h1 : ¬ pw.m_maxSubSteps < 0 := not_lt.mpr hmax.le
  simp [PhysicsWorld.stepArguments, h1, hmax]

/-- C2. On an initialized world with `m_maxSubSteps < 0`, for every `timeStep`, every
`m_internalFPS` and every float semantics, `Step` calls `stepSimulation(timeStep, 1, timeStep)`,
once. -/
theorem C2_negative_maxSubSteps_single_step (pw : PhysicsWorld F) (timeStep : F)
    (engineMode : EngineMode) (hinit : pw.m_world.isSome) (hmax : pw.m_maxSubSteps < 0) :
    backendCalls (pw.Step timeStep engineMode).trace = [(timeStep, 1, timeStep)] := by
  rw [Step_trace_of_world pw timeStep engineMode hinit]
  simp [PhysicsWorld.stepArguments, hmax]

end Stepping

/-! ## The conversion to `int` truncates toward zero -/

section Conversion

theorem truncate_neg (q : ℚ) : truncate (-q) = -truncate q := by
  unfold truncate
  rcases lt_trichotomy q 0 with h | h | h
  · have h1 : (0 : ℚ) ≤ -q := by linarith
    have h2 : ¬ (0 : ℚ) ≤ q := not_le.mpr h
    simp only [h1, h2, if_true, if_false, Int.floor_neg]
  · subst h; simp
  · have h1 : ¬ (0 : ℚ) ≤ -q := by intro hc; linarith
    have h2 : (0 : ℚ) ≤ q := h.le
    simp only [h1, h2, if_true, if_false, Int.ceil_neg]

theorem truncate_natCast_div (a b : Nat) :
    truncate ((a : ℚ) / (b : ℚ)) = ((a / b : Nat) : Int) := by
  have h0 : (0 : ℚ) ≤ (a : ℚ) / (b : ℚ) := by positivity
  simp only [truncate, h0, if_true]
  have h := Rat.floor_intCast_div_natCast (a : Int) b
  simpa using h

theorem natCast_mul_zpow_two (m : Nat) (e : Int) :
    (m : ℚ) * 2 ^ e = ((m * 2 ^ e.toNat : Nat) : ℚ) / ((2 ^ (-e).toNat : Nat) : ℚ) := by
  cases e with
  | ofNat n =>
    have h : (-(Int.ofNat n)).toNat = 0 := Int.toNat_eq_zero.mpr (by simp)
    rw [h]
    simp
  | negSucc n =>
    have h : (-(Int.negSucc n)).toNat = n + 1 := by simp [Int.neg_negSucc]
    rw [h]
    simp [zpow_negSucc, div_eq_mul_inv]

theorem Binary32.toRat_eq (x : Binary32) :
    x.toRat = (if x.sign then -1 else 1)
      * (((x.significand * 2 ^ x.scale.toNat : Nat) : ℚ)
          / ((2 ^ (-x.scale).toNat : Nat) : ℚ)) := by
  unfold Binary32.toRat
  rw [mul_assoc, natCast_mul_zpow_two]

/-- On a finite `float` the conversion to `int` is the truncation toward zero of its value
whenever that fits in `int`, and `INT_MIN` otherwise. -/
theorem Binary32.toInt_eq_truncate (x : Binary32) (hfinite : x.exponent < 255) :
    x.toInt = if -2 ^ 31 ≤ truncate x.toRat ∧ truncate x.toRat < 2 ^ 31
      then truncate x.toRat else Binary32.INT_MIN := by
  have hnot : ¬ 255 ≤ x.exponent := not_le.mpr hfinite
  have ht : truncate x.toRat
      = if x.sign then -((x.significand * 2 ^ x.scale.toNat / 2 ^ (-x.scale).toNat : Nat) : Int)
        else ((x.significand * 2 ^ x.scale.toNat / 2 ^ (-x.scale).toNat : Nat) : Int) := by
    rw [Binary32.toRat_eq]
    cases x.sign
    · simp only [Bool.false_eq_true, if_false, one_mul]
      exact truncate_natCast_div _ _
    · simp only [if_true, neg_one_mul, truncate_neg]
      rw [truncate_natCast_div]
  rw [ht]
  simp only [Binary32.toInt, hnot, if_false]

end Conversion

/-! ## The uncapped and the capped substep count -/

section Estimate

variable {F : Type} [FloatOps F]

open PhysicsWorld FloatOps

/-- The literals of the source and the time steps used below, as bit patterns. -/
theorem Binary32.lit_bits :
    (FloatOps.lit 60 : Binary32) = Binary32.ofBits 0x42700000
      ∧ (FloatOps.lit 1 : Binary32) = Binary32.ofBits 0x3f800000
      ∧ (FloatOps.lit 0 : Binary32) = Binary32.ofBits 0x00000000
      ∧ (FloatOps.lit (-981 / 100) : Binary32) = Binary32.ofBits 0xc11cf5c3
      ∧ (FloatOps.lit (167 / 10000) : Binary32) = Binary32.ofBits 0x3c88ce70
      ∧ (FloatOps.lit (-1 / 8) : Binary32) = Binary32.ofBits 0xbe000000
      ∧ (FloatOps.lit (1 / 4) : Binary32) = Binary32.ofBits 0x3e800000
      ∧ (FloatOps.lit (1 / 2) : Binary32) = Binary32.ofBits 0x3f000000 := by
  refine ⟨by decide, by decide, by decide, by decide!, by decide!, by decide!, by decide!,
    by decide!⟩

end Estimate

/-! ## Reset -/

section Teardown

variable {F : Type}

open PhysicsWorld

theorem set_indexOf_self {α : Type} [DecidableEq α] (l : List α) (a : α) :
    l.set (l.indexOf a) a = l := by
  induction l with
  | nil => rfl
  | cons b l ih =>
    by_cases h : b = a
    · subst h; simp
    · rw [List.indexOf_cons_ne _ h]; simp [ih]

theorem remove_concat {α : Type} [DecidableEq α] (xs : List α) (x : α) :
    btAlignedObjectArray.remove (xs ++ [x]) x = xs := by
  have hlt : (xs ++ [x]).indexOf x < (xs ++ [x]).length :=
    List.indexOf_lt_length.mpr (by simp)
  simp only [btAlignedObjectArray.remove, List.getLast?_concat, hlt, if_true, set_indexOf_self,
    List.dropLast_concat]

theorem constraintTeardown_concat (cs : List btTypedConstraint) (c : btTypedConstraint) :
    (constraintTeardown (cs ++ [c]) : List (Event F))
      = Event.removeConstraint c :: Event.deleteConstraint c :: constraintTeardown cs := by
  simp [constraintTeardown]

theorem collisionObjectTeardown_concat (os : List btCollisionObject) (obj : btCollisionObject) :
    (collisionObjectTeardown (os ++ [obj]) : List (Event F))
      = collisionObjectEvents obj ++ collisionObjectTeardown os := by
  simp [collisionObjectTeardown]

theorem map_fst_resetCollisionObject (w : btDiscreteDynamicsWorld F) (obj : btCollisionObject) :
    (resetCollisionObject w obj).2.map Prod.fst = collisionObjectEvents obj := by
  cases obj with
  | mk addr isRigidBody motionState =>
    cases isRigidBody <;> cases motionState <;>
      simp [resetCollisionObject, collisionObjectEvents, btRigidBody.upcast]

theorem destroysRegistered_resetCollisionObject (w : btDiscreteDynamicsWorld F)
    (obj : btCollisionObject)
    (h : obj.addr ∉ (w.removeCollisionObject obj).m_collisionObjects.map btCollisionObject.addr) :
    ∀ s ∈ (resetCollisionObject w obj).2, destroysRegistered s = false := by
  intro s hs
  cases obj with
  | mk addr isRigidBody motionState =>
    cases isRigidBody <;> cases motionState <;>
      simp only [resetCollisionObject, btRigidBody.upcast, if_true, List.nil_append,
        List.cons_append, List.mem_cons, List.mem_singleton, List.not_mem_nil, or_false,
        Bool.false_eq_true, if_false] at hs <;>
      rcases hs with rfl | hs <;>
      first
        | rfl
        | (simpa [destroysRegistered] using h)
        | (rcases hs with rfl | rfl <;> first | rfl | (simpa [destroysRegistered] using h))

theorem resetConstraints_spec (cs : List btTypedConstraint) :
    ∀ w : btDiscreteDynamicsWorld F, w.m_constraints = cs →
      ∃ steps, resetConstraints cs.length w = some ({ w with m_constraints := [] }, steps)
        ∧ steps.map Prod.fst = constraintTeardown cs
        ∧ (cs.Nodup → ∀ s ∈ steps, destroysRegistered s = false) := by
  induction cs using List.reverseRecOn with
  | nil =>
    intro w hw
    refine ⟨[], ?_, rfl, fun _ s hs => by simp at hs⟩
    cases w
    simp_all [resetConstraints]
  | append_singleton init x ih =>
    intro w hw
    have hget : w.getConstraint init.length = some x := by
      simp [btDiscreteDynamicsWorld.getConstraint, hw]
    have hrm : (w.removeConstraint x).m_constraints = init := by
      simp [btDiscreteDynamicsWorld.removeConstraint, hw, remove_concat]
    obtain ⟨steps, hrun, htrace, hsafe⟩ := ih (w.removeConstraint x) hrm
    refine ⟨(Event.removeConstraint x, w.removeConstraint x)
      :: (Event.deleteConstraint x, w.removeConstraint x) :: steps, ?_, ?_, ?_⟩
    · rw [List.length_append, List.length_singleton, resetConstraints, hget]
      simp only
      rw [hrun]
      simp [btDiscreteDynamicsWorld.removeConstraint]
    · rw [constraintTeardown_concat, List.map_cons, List.map_cons, htrace]
    · intro hnd s hs
      have hinit : init.Nodup := hnd.of_append_left
      have hx : x ∉ init := by
        intro hmem
        exact (List.nodup_append.mp hnd).2.2 hmem (by simp)
      simp only [List.mem_cons] at hs
      rcases hs with rfl | rfl | hs
      · rfl
      · simp [destroysRegistered, hrm, hx]
      · exact hsafe hinit s hs

theorem resetCollisionObjects_spec (os : List btCollisionObject) :
    ∀ w : btDiscreteDynamicsWorld F, w.m_collisionObjects = os →
      ∃ steps, resetCollisionObjects os.length w
          = some ({ w with m_collisionObjects := [] }, steps)
        ∧ steps.map Prod.fst = collisionObjectTeardown os
        ∧ ((os.map btCollisionObject.addr).Nodup →
            ∀ s ∈ steps, destroysRegistered s = false) := by
  induction os using List.reverseRecOn with
  | nil =>
    intro w hw
    refine ⟨[], ?_, rfl, fun _ s hs => by simp at hs⟩
    cases w
    simp_all [resetCollisionObjects]
  | append_singleton init x ih =>
    intro w hw
    have hget : w.getCollisionObject init.length = some x := by
      simp [btDiscreteDynamicsWorld.getCollisionObject, hw]
    have hw1 : (resetCollisionObject w x).1 = w.removeCollisionObject x := rfl
    have hrm : (w.removeCollisionObject x).m_collisionObjects = init := by
      simp [btDiscreteDynamicsWorld.removeCollisionObject, hw, remove_concat]
    obtain ⟨steps, hrun, htrace, hsafe⟩ := ih (w.removeCollisionObject x) hrm
    refine ⟨(resetCollisionObject w x).2 ++ steps, ?_, ?_, ?_⟩
    · rw [List.length_append, List.length_singleton, resetCollisionObjects, hget]
      simp only
      rw [hw1, hrun]
      simp [btDiscreteDynamicsWorld.removeCollisionObject]
    · rw [collisionObjectTeardown_concat, List.map_append, htrace,
        map_fst_resetCollisionObject]
    · intro hnd s hs
      rw [List.map_append, List.map_singleton] at hnd
      have hinit : (init.map btCollisionObject.addr).Nodup := hnd.of_append_left
      have hx : x.addr ∉ init.map btCollisionObject.addr := by
        intro hmem
        exact (List.nodup_append.mp hnd).2.2 hmem (by simp)
      rcases List.mem_append.mp hs with hs | hs
      · exact destroysRegistered_resetCollisionObject w x (by rw [hrm]; exact hx) s hs
      · exact hsafe hinit s hs

theorem ResetSteps_spec (pw : PhysicsWorld F) (w : btDiscreteDynamicsWorld F)
    (h : pw.m_world = some w) :
    ∃ steps, pw.ResetSteps
        = some ({ pw with
                  m_world := some { w with m_constraints := [], m_collisionObjects := [] } },
                steps)
      ∧ steps.map Prod.fst
        = constraintTeardown w.m_constraints ++ collisionObjectTeardown w.m_collisionObjects
      ∧ (w.m_constraints.Nodup → (w.m_collisionObjects.map btCollisionObject.addr).Nodup →
          ∀ s ∈ steps, destroysRegistered s = false) := by
  obtain ⟨t1, hrun1, htrace1, hsafe1⟩ := resetConstraints_spec w.m_constraints w rfl
  obtain ⟨t2, hrun2, htrace2, hsafe2⟩ :=
    resetCollisionObjects_spec w.m_collisionObjects { w with m_constraints := [] } rfl
  refine ⟨t1 ++ t2, ?_, ?_, ?_⟩
  · unfold PhysicsWorld.ResetSteps
    rw [h]
    simp only [btDiscreteDynamicsWorld.getNumConstraints]
    rw [hrun1]
    simp only [btDiscreteDynamicsWorld.getNumCollisionObjects]
    rw [hrun2]
  · rw [List.map_append, htrace1, htrace2]
  · intro hcs hos s hs
    rcases List.mem_append.mp hs with hs | hs
    · exact hsafe1 hcs s hs
    · exact hsafe2 hos s hs

theorem Reset_eq (pw : PhysicsWorld F) (w : btDiscreteDynamicsWorld F) (h : pw.m_world = some w) :
    pw.Reset
      = some ({ pw with
                m_world := some { w with m_constraints := [], m_collisionObjects := [] } },
              constraintTeardown w.m_constraints
                ++ collisionObjectTeardown w.m_collisionObjects) := by
  obtain ⟨steps, hrun, htrace, -⟩ := ResetSteps_spec pw w h
  unfold PhysicsWorld.Reset
  rw [hrun]
  simp only
  rw [htrace]

theorem Reset_of_null (pw : PhysicsWorld F) (hnull : pw.m_world = none) :
    pw.Reset = some (pw, []) := by
  simp [PhysicsWorld.Reset, PhysicsWorld.ResetSteps, hnull]

theorem releasedResources_collisionObjectTeardown (os : List btCollisionObject)
    (rest : List (Event F)) :
    releasedResources (collisionObjectTeardown os ++ rest) = releasedResources rest := by
  induction os using List.reverseRecOn with
  | nil => rfl
  | append_singleton init x ih =>
    rw [collisionObjectTeardown_concat]
    cases x with
    | mk addr isRigidBody motionState =>
      cases isRigidBody <;> cases motionState <;>
        simpa [collisionObjectEvents, releasedResources] using ih

theorem constructedResources_collisionObjectTeardown (os : List btCollisionObject)
    (rest : List (Event F)) :
    constructedResources (collisionObjectTeardown os ++ rest) = constructedResources rest := by
  induction os using List.reverseRecOn with
  | nil => rfl
  | append_singleton init x ih =>
    rw [collisionObjectTeardown_concat]
    cases x with
    | mk addr isRigidBody motionState =>
      cases isRigidBody <;> cases motionState <;>
        simpa [collisionObjectEvents, constructedResources] using ih

theorem releasedResources_teardown (cs : List btTypedConstraint) (os : List btCollisionObject) :
    releasedResources (constraintTeardown cs ++ collisionObjectTeardown os : List (Event F))
      = [] := by
  induction cs using List.reverseRecOn with
  | nil =>
    have h := releasedResources_collisionObjectTeardown (F := F) os []
    simpa [constraintTeardown, releasedResources] using h
  | append_singleton init x ih =>
    rw [constraintTeardown_concat]
    simpa [releasedResources] using ih

theorem constructedResources_teardown (cs : List btTypedConstraint)
    (os : List btCollisionObject) :
    constructedResources (constraintTeardown cs ++ collisionObjectTeardown os : List (Event F))
      = [] := by
  induction cs using List.reverseRecOn with
  | nil =>
    have h := constructedResources_collisionObjectTeardown (F := F) os []
    simpa [constraintTeardown, constructedResources] using h
  | append_singleton init x ih =>
    rw [constraintTeardown_concat]
    simpa [constructedResources] using ih

end Teardown

/-! ## The claims on `Reset` -/

section ResetClaims

variable {F : Type}

open PhysicsWorld

/-- C6. On an initialized world with any registries, `Reset()` returns; afterwards the world is
still present and is the same world object with both registries empty (constraint count and
collision-object count zero, gravity and solver settings as before), the component's gravity,
`m_internalFPS`, `m_maxSubSteps` and its other handles are as before, and the call neither
releases nor constructs any sub-resource. -/
theorem C6_Reset_empties_world (pw : PhysicsWorld F) (w : btDiscreteDynamicsWorld F)
    (hinit : pw.m_world = some w) :
    ∃ pw' w' trace, pw.Reset = some (pw', trace) ∧ pw'.m_world = some w'
      ∧ w'.getNumConstraints = 0 ∧ w'.getNumCollisionObjects = 0
      ∧ w' = { w with m_constraints := [], m_collisionObjects := [] }
      ∧ w'.m_gravity = w.m_gravity
      ∧ pw'.m_gravity = pw.m_gravity ∧ pw'.m_internalFPS = pw.m_internalFPS
      ∧ pw'.m_maxSubSteps = pw.m_maxSubSteps
      ∧ pw' = { pw with m_world := some w' }
      ∧ releasedResources trace = [] ∧ constructedResources trace = [] := by
  refine ⟨_, _, _, Reset_eq pw w hinit, rfl, rfl, rfl, rfl, rfl, rfl, rfl, rfl, rfl, ?_, ?_⟩
  · exact releasedResources_teardown _ _
  · exact constructedResources_teardown _ _

end ResetClaims

/-! ## The claims on `Step`, destruction and reachable states -/

section Claims

variable {F : Type} [FloatOps F]

open PhysicsWorld

theorem Step_state_eq (pw pw' : PhysicsWorld F) (timeStep : F) (engineMode : EngineMode)
    (h : (pw.Step timeStep engineMode).state = some pw') : pw' = pw := by
  unfold PhysicsWorld.Step at h
  cases hw : pw.m_world with
  | none => simp [hw] at h; exact h.symm
  | some w =>
    cases hd : pw.m_debugDraw <;> by_cases hm : engineMode = EngineMode.Editor_Stop <;>
      simp [hw, hd, hm] at h <;> exact h.symm

theorem Step_state_of_handles (pw : PhysicsWorld F) (timeStep : F) (engineMode : EngineMode)
    (hdraw : pw.m_world.isSome → pw.m_debugDraw.isSome) :
    (pw.Step timeStep engineMode).state = some pw := by
  unfold PhysicsWorld.Step
  cases hw : pw.m_world with
  | none => rfl
  | some w =>
    cases hd : pw.m_debugDraw with
    | none => simp [hw, hd] at hdraw
    | some d => by_cases hm : engineMode = EngineMode.Editor_Stop <;> simp [hm]

/-- C5. On a world whose `m_world` is null, `Step(timeStep)` for every `timeStep` and engine mode,
and `Reset()`, return normally with the component state unchanged and perform no event at all: no
backend call, no signal, no `ClearLines`, no `debugDrawWorld`, no removal, no `delete`. -/
theorem C5_uninitialized_noop (pw : PhysicsWorld F) (timeStep : F) (engineMode : EngineMode)
    (hnull : pw.m_world = none) :
    pw.Step timeStep engineMode = { trace := [], state := some pw }
      ∧ pw.Reset = some (pw, []) := by
  constructor
  · simp [PhysicsWorld.Step, hnull]
  · exact Reset_of_null pw hnull

/-- C8, as stated, fails: the destructor of an initialized world releases the world first and the
debug drawer last, which is neither the claimed order nor the reverse of the construction order
of `Initialize`. -/
theorem C8_counterexample :
    releasedResources (sampleWorld 0).dtor
        = [Resource.world, Resource.constraintSolver, Resource.broadphase, Resource.dispatcher,
            Resource.collisionConfiguration, Resource.debugDraw]
      ∧ releasedResources (sampleWorld 0).dtor
        ≠ [Resource.debugDraw, Resource.world, Resource.constraintSolver, Resource.dispatcher,
            Resource.collisionConfiguration, Resource.broadphase]
      ∧ (constructedResources (PhysicsWorld.ctor : PhysicsWorld Binary32).Initialize.2).reverse
        = [Resource.debugDraw, Resource.world, Resource.constraintSolver, Resource.dispatcher,
            Resource.collisionConfiguration, Resource.broadphase] := by
  refine ⟨rfl, ?_, rfl⟩
  have h : releasedResources (sampleWorld 0).dtor
      = [Resource.world, Resource.constraintSolver, Resource.broadphase, Resource.dispatcher,
          Resource.collisionConfiguration, Resource.debugDraw] := rfl
  rw [h]
  decide

/-- C8, amended. Destroying a world whose six sub-resources are present releases each of them
exactly once, in the order DynamicsWorld, ConstraintSolver, BroadphaseIndex, CollisionDispatcher,
CollisionConfiguration, DebugDrawSink (the first five by `delete`, the debug drawer by
`Release()`); destroying a freshly constructed world releases nothing. -/
theorem C8_dtor_release_order (pw : PhysicsWorld F) (hworld : pw.m_world.isSome)
    (hsolver : pw.m_constraintSolver.isSome) (hbroadphase : pw.m_broadphase.isSome)
    (hdispatcher : pw.m_dispatcher.isSome) (hconfig : pw.m_collisionConfiguration.isSome)
    (hdraw : pw.m_debugDraw.isSome) :
    pw.dtor
        = [Event.delete Resource.world, Event.delete Resource.constraintSolver,
            Event.delete Resource.broadphase, Event.delete Resource.dispatcher,
            Event.delete Resource.collisionConfiguration, Event.release Resource.debugDraw]
      ∧ releasedResources pw.dtor
        = [Resource.world, Resource.constraintSolver, Resource.broadphase, Resource.dispatcher,
            Resource.collisionConfiguration, Resource.debugDraw]
      ∧ (releasedResources pw.dtor).Nodup
      ∧ (PhysicsWorld.ctor : PhysicsWorld F).dtor = [] := by
  have hd : pw.dtor
      = [Event.delete Resource.world, Event.delete Resource.constraintSolver,
          Event.delete Resource.broadphase, Event.delete Resource.dispatcher,
          Event.delete Resource.collisionConfiguration, Event.release Resource.debugDraw] := by
    cases h1 : pw.m_world <;> cases h2 : pw.m_constraintSolver <;> cases h3 : pw.m_broadphase <;>
      cases h4 : pw.m_dispatcher <;> cases h5 : pw.m_collisionConfiguration <;>
      cases h6 : pw.m_debugDraw <;>
      simp_all [PhysicsWorld.dtor, PhysicsWorld.SafeDelete, PhysicsWorld.SafeRelease]
  refine ⟨hd, ?_, ?_, rfl⟩
  · rw [hd]; rfl
  · rw [hd]; simp [releasedResources]

/-- C9. On an initialized world (world and debug drawer present), for every `timeStep` and every
engine mode, `Step` returns with the component state unchanged and performs exactly: the
`stepSimulation` call, then the `SIGNAL_PHYSICS_STEPPED` emission, then `ClearLines` and
`debugDrawWorld` if and only if the engine mode is `Editor_Stop`. -/
theorem C9_Step_effects (pw : PhysicsWorld F) (timeStep : F) (engineMode : EngineMode)
    (hinit : pw.m_world.isSome) (hdraw : pw.m_debugDraw.isSome) :
    pw.Step timeStep engineMode
      = { trace :=
            [Event.stepSimulation timeStep (pw.stepArguments timeStep).1
                (pw.stepArguments timeStep).2,
              Event.emitSignal Signal.SIGNAL_PHYSICS_STEPPED]
              ++ (if engineMode = EngineMode.Editor_Stop
                  then [Event.clearLines, Event.debugDrawWorld] else [])
          state := some pw } := by
  unfold PhysicsWorld.Step
  cases hw : pw.m_world with
  | none => simp [hw] at hinit
  | some w =>
    cases hd : pw.m_debugDraw with
    | none => simp [hd] at hdraw
    | some d => by_cases hm : engineMode = EngineMode.Editor_Stop <;> simp [hm]

theorem Reachable_handles (pw : PhysicsWorld F) (h : Reachable pw) :
    pw.m_world.isSome →
      pw.m_debugDraw.isSome ∧ pw.m_broadphase.isSome ∧ pw.m_dispatcher.isSome
        ∧ pw.m_constraintSolver.isSome ∧ pw.m_collisionConfiguration.isSome := by
  induction h with
  | ctor => intro h; simp [PhysicsWorld.ctor] at h
  | Initialize pw _ _ => intro _; simp [PhysicsWorld.Initialize]
  | Step pw pw' timeStep engineMode _ hstep ih =>
    rw [Step_state_eq pw pw' timeStep engineMode hstep]; exact ih
  | Reset pw pw' trace _ hreset ih =>
    cases hw : pw.m_world with
    | none =>
      have h := Reset_of_null pw hw
      rw [h] at hreset
      simp only [Option.some.injEq, Prod.mk.injEq] at hreset
      rw [← hreset.1]; exact ih
    | some w =>
      rw [Reset_eq pw w hw] at hreset
      simp only [Option.some.injEq, Prod.mk.injEq] at hreset
      rw [← hreset.1]
      intro _
      exact ih (by simp [hw])
  | register pw w cs os _ hw ih =>
    intro _
    exact ih (by simp [hw])

/-- C10. In every state reachable from a freshly constructed `PhysicsWorld` by calls of
`Initialize`, `Step` and `Reset` (and by registrations made through `GetWorld()`), if the world
handle is present then so are the debug drawer, broadphase, dispatcher, solver and collision
configuration; hence no `Step` call in such a state dereferences a null `m_debugDraw`. -/
theorem C10_world_implies_debugDraw (pw : PhysicsWorld F) (hreach : Reachable pw) :
    (pw.m_world.isSome →
      pw.m_debugDraw.isSome ∧ pw.m_broadphase.isSome ∧ pw.m_dispatcher.isSome
        ∧ pw.m_constraintSolver.isSome ∧ pw.m_collisionConfiguration.isSome)
      ∧ ∀ (timeStep : F) (engineMode : EngineMode),
          (pw.Step timeStep engineMode).state = some pw := by
  have hinv := Reachable_handles pw hreach
  exact ⟨hinv, fun timeStep engineMode =>
    Step_state_of_handles pw timeStep engineMode (fun hw => (hinv hw).1)⟩

end Claims

/-! ## The claims at concrete worlds -/

section Witnesses

open PhysicsWorld FloatOps

/-- C1 at `m_internalFPS = 60.0f`, `m_maxSubSteps = 10`, `timeStep = 1.0f`. -/
theorem C1_witness :
    (sampleWorld 10).m_world.isSome ∧ 0 < (sampleWorld 10).m_maxSubSteps
      ∧ ∃ n fixedTimeStep,
          backendCalls ((sampleWorld 10).Step (lit 1) EngineMode.Editor_Stop).trace
            = [(lit 1, n, fixedTimeStep)]
          ∧ n ≤ (sampleWorld 10).m_maxSubSteps :=
  ⟨rfl, by decide,
    C1_substeps_le_maxSubSteps (sampleWorld 10) (lit 1) EngineMode.Editor_Stop rfl (by decide)⟩

/-- C2 at `m_maxSubSteps = -1`, `timeStep = 0.0167f`: the call is `(0.0167f, 1, 0.0167f)`. -/
theorem C2_witness :
    (sampleWorld (-1)).m_world.isSome ∧ (sampleWorld (-1)).m_maxSubSteps < 0
      ∧ backendCalls ((sampleWorld (-1)).Step (lit (167 / 10000)) EngineMode.Editor_Play).trace
          = [(lit (167 / 10000), 1, lit (167 / 10000))] :=
  ⟨rfl, by decide,
    C2_negative_maxSubSteps_single_step (sampleWorld (-1)) (lit (167 / 10000))
      EngineMode.Editor_Play rfl (by decide)⟩

/-- C5 at the freshly constructed world. -/
theorem C5_witness :
    (PhysicsWorld.ctor : PhysicsWorld Binary32).m_world = none
      ∧ (PhysicsWorld.ctor : PhysicsWorld Binary32).Step (lit 1) EngineMode.Editor_Stop
          = { trace := [], state := some PhysicsWorld.ctor }
      ∧ (PhysicsWorld.ctor : PhysicsWorld Binary32).Reset = some (PhysicsWorld.ctor, []) :=
  ⟨rfl, C5_uninitialized_noop PhysicsWorld.ctor (lit 1) EngineMode.Editor_Stop rfl⟩

/-- C6 at `populatedWorld`. -/
theorem C6_witness :
    populatedWorld.m_world = some sampleRegistry
      ∧ ∃ pw' w' trace, populatedWorld.Reset = some (pw', trace) ∧ pw'.m_world = some w'
        ∧ w'.getNumConstraints = 0 ∧ w'.getNumCollisionObjects = 0
        ∧ w' = { sampleRegistry with m_constraints := [], m_collisionObjects := [] }
        ∧ w'.m_gravity = sampleRegistry.m_gravity
        ∧ pw'.m_gravity = populatedWorld.m_gravity
        ∧ pw'.m_internalFPS = populatedWorld.m_internalFPS
        ∧ pw'.m_maxSubSteps = populatedWorld.m_maxSubSteps
        ∧ pw' = { populatedWorld with m_world := some w' }
        ∧ releasedResources trace = [] ∧ constructedResources trace = [] :=
  ⟨rfl, C6_Reset_empties_world populatedWorld sampleRegistry rfl⟩

/-- C8 (amended) at an initialized world. -/
theorem C8_witness :
    (sampleWorld 0).m_world.isSome ∧ (sampleWorld 0).m_constraintSolver.isSome
      ∧ (sampleWorld 0).m_broadphase.isSome ∧ (sampleWorld 0).m_dispatcher.isSome
      ∧ (sampleWorld 0).m_collisionConfiguration.isSome
      ∧ (sampleWorld 0).m_debugDraw.isSome
      ∧ (sampleWorld 0).dtor
        = [Event.delete Resource.world, Event.delete Resource.constraintSolver,
            Event.delete Resource.broadphase, Event.delete Resource.dispatcher,
            Event.delete Resource.collisionConfiguration, Event.release Resource.debugDraw]
      ∧ releasedResources (sampleWorld 0).dtor
        = [Resource.world, Resource.constraintSolver, Resource.broadphase, Resource.dispatcher,
            Resource.collisionConfiguration, Resource.debugDraw]
      ∧ (releasedResources (sampleWorld 0).dtor).Nodup
      ∧ (PhysicsWorld.ctor : PhysicsWorld Binary32).dtor = [] :=
  ⟨rfl, rfl, rfl, rfl, rfl, rfl,
    C8_dtor_release_order (sampleWorld 0) rfl rfl rfl rfl rfl rfl⟩

/-- C9 at an initialized world with `m_maxSubSteps = -1`, stopped in the editor, with
`timeStep = 0.5f` (bits `0x3f000000`). -/
theorem C9_witness :
    (sampleWorld (-1)).m_world.isSome ∧ (sampleWorld (-1)).m_debugDraw.isSome
      ∧ (sampleWorld (-1)).Step (Binary32.ofBits 0x3f000000) EngineMode.Editor_Stop
        = { trace :=
              [Event.stepSimulation (Binary32.ofBits 0x3f000000) 1 (Binary32.ofBits 0x3f000000),
                Event.emitSignal Signal.SIGNAL_PHYSICS_STEPPED,
                Event.clearLines, Event.debugDrawWorld]
            state := some (sampleWorld (-1)) } :=
  ⟨rfl, rfl,
    C9_Step_effects (sampleWorld (-1)) (Binary32.ofBits 0x3f000000) EngineMode.Editor_Stop
      rfl rfl⟩

/-- C10 at the state reached by `Initialize` on a freshly constructed world. -/
theorem C10_witness :
    Reachable (PhysicsWorld.ctor : PhysicsWorld Binary32).Initialize.1
      ∧ ((PhysicsWorld.ctor : PhysicsWorld Binary32).Initialize.1.m_world.isSome →
          (PhysicsWorld.ctor : PhysicsWorld Binary32).Initialize.1.m_debugDraw.isSome
            ∧ (PhysicsWorld.ctor : PhysicsWorld Binary32).Initialize.1.m_broadphase.isSome
            ∧ (PhysicsWorld.ctor : PhysicsWorld Binary32).Initialize.1.m_dispatcher.isSome
            ∧ (PhysicsWorld.ctor : PhysicsWorld Binary32).Initialize.1.m_constraintSolver.isSome
            ∧ (PhysicsWorld.ctor :
                PhysicsWorld Binary32).Initialize.1.m_collisionConfiguration.isSome)
      ∧ ∀ (timeStep : Binary32) (engineMode : EngineMode),
          ((PhysicsWorld.ctor : PhysicsWorld Binary32).Initialize.1.Step timeStep
              engineMode).state
            = some (PhysicsWorld.ctor : PhysicsWorld Binary32).Initialize.1 :=
  ⟨Reachable.Initialize _ Reachable.ctor,
    C10_world_implies_debugDraw _ (Reachable.Initialize _ Reachable.ctor)⟩

end Witnesses

end Directus
